import Mathlib

/-!
Verification of the MagicSock core (`iroh-net/src/hp/magicsock/conn.rs`).

This file gives a shallow embedding of the parts of `conn.rs` that the
checked properties talk about: the mapped-address generator, the facade
`poll_send` / `poll_recv` / `close` operations, the transmit grouping
iterator, the relay packet splitter, endpoint-set comparison, and the
discovery handlers (`handle_disco_message`, `handle_ping`).

Machine integers are modelled as `Nat` with explicit wrap-around where the
source wraps; byte strings as `List Nat`; fallible operations return
`Except`/`Option`.  Logging and metric recording are elided except where a
property is about a metric counter, in which case counters are modelled as
an explicit effect list.
-/

/-- An IP address: either four IPv4 octets or sixteen IPv6 bytes. -/
inductive IpAddr where
  | v4 (a b c d : Nat) : IpAddr
  | v6 (bytes : List Nat) : IpAddr
deriving DecidableEq, Repr

/-- A socket address, an IP address paired with a port. -/
structure SocketAddr where
  ip : IpAddr
  port : Nat
deriving DecidableEq, Repr

/-- Modelled from the spec: the well-known `RELAY_MAGIC_IP` sentinel
(`DERP_MAGIC_IP` in the source, defined in the `cfg` module which is not
part of this file's source).  Relay traffic arrives with this IP and the
relay region id as the port.  Only its identity matters for the
properties below. -/
def DERP_MAGIC_IP : IpAddr := IpAddr.v4 127 3 3 40

/-- `io::ErrorKind` values that the modelled code produces or matches on. -/
inductive IoErrorKind where
  | notConnected
  | unexpectedEof
  | other
deriving DecidableEq, Repr

/-- An `io::Error`: a kind plus a message string. -/
structure IoError where
  kind : IoErrorKind
  msg : String
deriving DecidableEq, Repr

/-- The "connection closed" error returned by the facade after close. -/
def connClosedError : IoError := { kind := IoErrorKind.notConnected, msg := "connection closed" }

/-- `Poll` from the futures model: ready with a value, or pending. -/
inductive Poll (α : Type) where
  | ready (a : α) : Poll α
  | pending : Poll α
deriving DecidableEq, Repr

/-! ## QuicMappedAddr (conn.rs lines 2389-2417) -/

/-- The big-endian byte decomposition of a `u64` (`u64::to_be_bytes`). -/
def u64_be_bytes (n : Nat) : List Nat :=
  [n / 72057594037927936 % 256,
   n / 281474976710656 % 256,
   n / 1099511627776 % 256,
   n / 4294967296 % 256,
   n / 16777216 % 256,
   n / 65536 % 256,
   n / 256 % 256,
   n % 256]

/-- The fake address used by the QUIC layer to address a peer. -/
structure QuicMappedAddr where
  socketAddr : SocketAddr
deriving DecidableEq, Repr

namespace QuicMappedAddr

/-- The Prefix/L byte of the Unique Local Addresses (`ADDR_PREFIXL`). -/
def ADDR_PREFIXL : Nat := 0xfd

/-- The Global ID of the Unique Local Addresses (`ADDR_GLOBAL_ID`). -/
def ADDR_GLOBAL_ID : List Nat := [21, 7, 10, 81, 11]

/-- The Subnet ID of the Unique Local Addresses (`ADDR_SUBNET`). -/
def ADDR_SUBNET : List Nat := [0, 0]

/-- `QuicMappedAddr::generate`, as a function of the value the wrapping
`ADDR_COUNTER.fetch_add(1)` returned for this call.  Builds the sixteen
address bytes (prefix, global id, subnet, big-endian counter) and uses
port 12345. -/
def generate (counter : Nat) : QuicMappedAddr :=
  { socketAddr :=
      { ip := IpAddr.v6 (ADDR_PREFIXL :: (ADDR_GLOBAL_ID ++ ADDR_SUBNET ++ u64_be_bytes (counter % 18446744073709551616)))
        port := 12345 } }

/-- The address returned by the `k`-th call (0-based) to
`QuicMappedAddr::generate` in one process: the atomic counter starts at 0
and `fetch_add(1, ..)` wraps at `2^64`, so the `k`-th call observes
`k mod 2^64`. -/
def nthGenerated (k : Nat) : QuicMappedAddr :=
  generate (k % 18446744073709551616)

end QuicMappedAddr

lemma u64_be_bytes_inj {a b : Nat} (ha : a < 18446744073709551616)
    (hb : b < 18446744073709551616) (h : u64_be_bytes a = u64_be_bytes b) : a = b := by
  simp only [u64_be_bytes, List.cons.injEq, and_true] at h
  omega

/-- Claim C1: every address returned by `QuicMappedAddr::generate` within one
process (fewer than `2^64` calls in total) lies in the mapped-address
space — first byte `0xfd`, bytes 1-5 equal to `[21, 7, 10, 81, 11]`,
bytes 6-7 zero, last eight bytes the big-endian counter value, port
12345 — and the returned addresses are pairwise distinct. -/
theorem quic_mapped_addr_generate_unique (n : Nat) (hn : n < 18446744073709551616)
    (i j : Nat) (hi : i < n) (hj : j < n) :
    QuicMappedAddr.nthGenerated i =
      { socketAddr :=
        { ip := IpAddr.v6 ([0xfd, 21, 7, 10, 81, 11, 0, 0] ++ u64_be_bytes i)
          port := 12345 } } ∧
    (i ≠ j → QuicMappedAddr.nthGenerated i ≠ QuicMappedAddr.nthGenerated j) := by
  have hi' : i % 18446744073709551616 = i := Nat.mod_eq_of_lt (by omega)
  have hj' : j % 18446744073709551616 = j := Nat.mod_eq_of_lt (by omega)
  constructor
  · simp [QuicMappedAddr.nthGenerated, QuicMappedAddr.generate, hi',
      QuicMappedAddr.ADDR_PREFIXL, QuicMappedAddr.ADDR_GLOBAL_ID, QuicMappedAddr.ADDR_SUBNET]
  · intro hij hEq
    apply hij
    simp only [QuicMappedAddr.nthGenerated, QuicMappedAddr.generate, hi', hj',
      QuicMappedAddr.mk.injEq, SocketAddr.mk.injEq, IpAddr.v6.injEq,
      List.cons.injEq, List.append_cancel_left_eq, and_true, true_and] at hEq
    exact u64_be_bytes_inj (by omega) (by omega) hEq

/-- Witness for C1 at concrete inputs. -/
theorem quic_mapped_addr_generate_unique_witness :
    QuicMappedAddr.nthGenerated 1 =
      { socketAddr :=
        { ip := IpAddr.v6 ([0xfd, 21, 7, 10, 81, 11, 0, 0] ++ u64_be_bytes 1)
          port := 12345 } } ∧
    (1 ≠ 2 → QuicMappedAddr.nthGenerated 1 ≠ QuicMappedAddr.nthGenerated 2) :=
  quic_mapped_addr_generate_unique 3 (by decide) 1 2 (by decide) (by decide)

/-! ## TransmitIter (conn.rs lines 2296-2331) -/

/-- A `quinn_udp::Transmit`: a datagram tagged with a destination and
optional ECN / segment size / source-IP hints. -/
structure Transmit where
  destination : SocketAddr
  ecn : Option Nat
  contents : List Nat
  segmentSize : Option Nat
  srcIp : Option IpAddr
deriving DecidableEq, Repr

/-- The sequence of groups produced by iterating `TransmitIter`: starting
at the current offset, take the maximal run sharing the first transmit's
destination, emit it, and continue after it. -/
def TransmitIter.groups : List Transmit → List (List Transmit)
  | [] => []
  | t :: ts =>
    (t :: ts.takeWhile (fun u => decide (u.destination = t.destination))) ::
      TransmitIter.groups (ts.dropWhile (fun u => decide (u.destination = t.destination)))
termination_by l => l.length
decreasing_by
  simp only [List.length_cons]
  exact Nat.lt_succ_of_le (List.dropWhile_sublist _).length_le

lemma transmit_groups_flatten (l : List Transmit) : (TransmitIter.groups l).flatten = l := by
  induction l using TransmitIter.groups.induct with
  | case1 => simp [TransmitIter.groups]
  | case2 t ts ih =>
    rw [TransmitIter.groups]
    simp only [List.flatten_cons, ih, List.cons_append, List.takeWhile_append_dropWhile]

lemma transmit_groups_head_dest {l : List Transmit} {g : List Transmit} {gs : List (List Transmit)}
    (h : TransmitIter.groups l = g :: gs) :
    ∃ t ts, l = t :: ts ∧ g = t :: ts.takeWhile (fun u => decide (u.destination = t.destination)) ∧
      gs = TransmitIter.groups (ts.dropWhile (fun u => decide (u.destination = t.destination))) := by
  match l with
  | [] => rw [TransmitIter.groups] at h; exact absurd h (by simp)
  | t :: ts =>
    rw [TransmitIter.groups] at h
    exact ⟨t, ts, rfl, (List.cons.injEq _ _ _ _ ▸ h).1.symm, (List.cons.injEq _ _ _ _ ▸ h).2.symm⟩

lemma transmit_groups_uniform {l : List Transmit} {g : List Transmit}
    (hg : g ∈ TransmitIter.groups l) : ∀ a ∈ g, ∀ b ∈ g, a.destination = b.destination := by
  induction l using TransmitIter.groups.induct with
  | case1 => rw [TransmitIter.groups] at hg; exact absurd hg (by simp)
  | case2 t ts ih =>
    rw [TransmitIter.groups] at hg
    rcases List.mem_cons.mp hg with h | h
    · subst h
      have hdest : ∀ a ∈ t :: ts.takeWhile (fun u => decide (u.destination = t.destination)),
          a.destination = t.destination := by
        intro a ha
        rcases List.mem_cons.mp ha with h' | h'
        · rw [h']
        · simpa using List.mem_takeWhile_imp h'
      intro a ha b hb
      rw [hdest a ha, hdest b hb]
    · exact ih h

lemma transmit_groups_nonempty {l : List Transmit} {g : List Transmit}
    (hg : g ∈ TransmitIter.groups l) : g ≠ [] := by
  induction l using TransmitIter.groups.induct with
  | case1 => rw [TransmitIter.groups] at hg; exact absurd hg (by simp)
  | case2 t ts ih =>
    rw [TransmitIter.groups] at hg
    rcases List.mem_cons.mp hg with h | h
    · subst h; exact List.cons_ne_nil _ _
    · exact ih h

lemma transmit_groups_chain (l : List Transmit) :
    List.Chain' (fun g h => ∀ a ∈ g, ∀ b ∈ h, a.destination ≠ b.destination)
      (TransmitIter.groups l) := by
  induction l using TransmitIter.groups.induct with
  | case1 => rw [TransmitIter.groups]; exact List.chain'_nil
  | case2 t ts ih =>
    rw [TransmitIter.groups]
    rw [List.chain'_cons']
    refine ⟨?_, ih⟩
    intro g hgHead
    cases hGroups : TransmitIter.groups (ts.dropWhile (fun u => decide (u.destination = t.destination))) with
    | nil => rw [hGroups] at hgHead; exact absurd hgHead (by simp)
    | cons g0 gs =>
      rw [hGroups] at hgHead
      simp only [List.head?_cons, Option.mem_some_iff] at hgHead
      subst hgHead
      obtain ⟨r, rs, hdrop, hg0, -⟩ := transmit_groups_head_dest hGroups
      have hrFalse : decide (r.destination = t.destination) = false := by
        have := List.head?_dropWhile_not (fun u => decide (u.destination = t.destination)) ts
        rw [hdrop] at this
        simpa using this
      have hrne : r.destination ≠ t.destination := by
        intro hEq
        rw [hEq] at hrFalse
        simp at hrFalse
      intro a ha b hb
      have haDest : a.destination = t.destination := by
        have : a ∈ t :: ts.takeWhile (fun u => decide (u.destination = t.destination)) := ha
        rcases List.mem_cons.mp this with h' | h'
        · rw [h']
        · simpa using List.mem_takeWhile_imp h'
      have hbDest : b.destination = r.destination := by
        have hbr : b ∈ r :: rs.takeWhile (fun u => decide (u.destination = r.destination)) :=
          hg0 ▸ hb
        rcases List.mem_cons.mp hbr with h' | h'
        · rw [h']
        · simpa using List.mem_takeWhile_imp h'
      rw [haDest, hbDest]
      exact fun hEq => hrne hEq.symm

/-- A transmit with a given destination and empty payload, used in the
concrete grouping example. -/
def mkTransmit (d : SocketAddr) : Transmit :=
  { destination := d, ecn := none, contents := [], segmentSize := none, srcIp := none }

/-- The destinations of the concrete example batch: d1, d2, d2, d1, d3, d3. -/
def exampleBatch : List Transmit :=
  [mkTransmit ⟨IpAddr.v4 10 0 0 1, 1⟩, mkTransmit ⟨IpAddr.v4 10 0 0 2, 2⟩,
   mkTransmit ⟨IpAddr.v4 10 0 0 2, 2⟩, mkTransmit ⟨IpAddr.v4 10 0 0 1, 1⟩,
   mkTransmit ⟨IpAddr.v4 10 0 0 3, 3⟩, mkTransmit ⟨IpAddr.v4 10 0 0 3, 3⟩]

/-- Claim C5: `TransmitIter` partitions every batch into consecutive
non-empty groups: each group's transmits share one destination, adjacent
groups have different destinations, and concatenating the groups yields
exactly the original batch; on the example batch with destinations
`[d1, d2, d2, d1, d3, d3]` it yields four groups of sizes 1, 2, 1, 2. -/
theorem transmit_iter_groups_spec (l : List Transmit) :
    (TransmitIter.groups l).flatten = l ∧
    (∀ g ∈ TransmitIter.groups l, g ≠ []) ∧
    (∀ g ∈ TransmitIter.groups l, ∀ a ∈ g, ∀ b ∈ g, a.destination = b.destination) ∧
    List.Chain' (fun g h => ∀ a ∈ g, ∀ b ∈ h, a.destination ≠ b.destination)
      (TransmitIter.groups l) ∧
    (TransmitIter.groups exampleBatch).map List.length = [1, 2, 1, 2] := by
  refine ⟨transmit_groups_flatten l, fun g hg => transmit_groups_nonempty hg,
    fun g hg => transmit_groups_uniform hg, transmit_groups_chain l, ?_⟩
  simp [exampleBatch, mkTransmit, TransmitIter.groups.eq_def]

/-! ## PacketSplitIter (conn.rs lines 2334-2374) -/

/-- The "unexpected end of input" error produced by `PacketSplitIter::fail`. -/
def eofError : IoError := { kind := IoErrorKind.unexpectedEof, msg := "" }

/-- The sequence of items yielded by iterating `PacketSplitIter` over a
byte string: while bytes remain, read a little-endian `u16` length and
yield that many following bytes; fewer than 2 remaining bytes, or a
length exceeding the remaining bytes, clears the buffer and yields one
`UnexpectedEof` error. -/
def PacketSplitIter.items : List Nat → List (Except IoError (List Nat))
  | [] => []
  | [_] => [Except.error eofError]
  | b0 :: b1 :: rest =>
    let len := b0 + 256 * b1
    if rest.length < len then [Except.error eofError]
    else Except.ok (rest.take len) :: PacketSplitIter.items (rest.drop len)
termination_by l => l.length
decreasing_by
  simp only [List.length_cons, List.length_drop]
  omega

/-- One item of the relay wire framing: a little-endian `u16` length
followed by the item's bytes. -/
def encodeItem (item : List Nat) : List Nat :=
  item.length % 256 :: item.length / 256 % 256 :: item

/-- The relay wire framing of a packet: the concatenation of its encoded
items. -/
def encodePackets (items : List (List Nat)) : List Nat :=
  (items.map encodeItem).flatten

/-- A truncated tail: a non-empty byte string that is not a valid framing
start — either a single byte remains, or the leading length prefix
exceeds the remaining bytes. -/
def truncatedTail : List Nat → Bool
  | [] => false
  | [_] => true
  | c0 :: c1 :: cs => decide (cs.length < c0 + 256 * c1)

lemma packet_split_items_encode_cons (i : List Nat) (hi : i.length < 65536) (l : List Nat) :
    PacketSplitIter.items (encodeItem i ++ l) =
      Except.ok i :: PacketSplitIter.items l := by
  have hlen : i.length % 256 + 256 * (i.length / 256 % 256) = i.length := by omega
  rw [encodeItem]
  rw [List.cons_append, List.cons_append, PacketSplitIter.items]
  simp only [hlen]
  rw [if_neg (by simp), List.take_left, List.drop_left]

lemma packet_split_items_truncated {bad : List Nat} (hbad : truncatedTail bad = true) :
    PacketSplitIter.items bad = [Except.error eofError] := by
  match bad with
  | [] => simp [truncatedTail] at hbad
  | [b] => rw [PacketSplitIter.items]
  | c0 :: c1 :: cs =>
    rw [truncatedTail] at hbad
    rw [PacketSplitIter.items]
    simp only [if_pos (of_decide_eq_true hbad)]

/-- Claim C6: on a byte string that is a concatenation of length-prefixed
items, `PacketSplitIter` yields exactly those items, in order, as `Ok`
results and terminates; on such a string followed by a truncated tail it
yields the well-formed leading items followed by exactly one
`UnexpectedEof` error. -/
theorem packet_split_iter_spec (its : List (List Nat)) (h : ∀ i ∈ its, i.length < 65536)
    (bad : List Nat) (hbad : truncatedTail bad = true) :
    PacketSplitIter.items (encodePackets its) = its.map Except.ok ∧
    PacketSplitIter.items (encodePackets its ++ bad) =
      its.map Except.ok ++ [Except.error eofError] := by
  induction its with
  | nil =>
    refine ⟨?_, ?_⟩
    · rw [encodePackets]
      simp only [List.map_nil, List.flatten_nil]
      rw [PacketSplitIter.items]
    · rw [encodePackets]
      simp only [List.map_nil, List.flatten_nil, List.nil_append]
      rw [packet_split_items_truncated hbad]
  | cons i its ih =>
    obtain ⟨ih1, ih2⟩ := ih (fun j hj => h j (List.mem_cons_of_mem i hj))
    have hi : i.length < 65536 := h i (List.mem_cons_self i its)
    have hsplit : encodePackets (i :: its) = encodeItem i ++ encodePackets its := by
      simp [encodePackets]
    refine ⟨?_, ?_⟩
    · rw [hsplit, packet_split_items_encode_cons i hi, ih1, List.map_cons]
    · rw [hsplit, List.append_assoc, packet_split_items_encode_cons i hi, ih2,
        List.map_cons, List.cons_append]

/-- Witness for C6 at concrete inputs. -/
theorem packet_split_iter_spec_witness :
    PacketSplitIter.items (encodePackets [[7], [8, 9, 10]]) = [[7], [8, 9, 10]].map Except.ok ∧
    PacketSplitIter.items (encodePackets [[7], [8, 9, 10]] ++ [9, 0, 1]) =
      [[7], [8, 9, 10]].map Except.ok ++ [Except.error eofError] :=
  packet_split_iter_spec [[7], [8, 9, 10]] (by decide) [9, 0, 1] (by decide)

/-! ## endpoint_sets_equal (conn.rs lines 548-574)

The source compares two `&[cfg::Endpoint]` slices; the algorithm only uses
equality and hashing of the entries, so it is embedded generically over a
type with decidable equality.  The `HashMap<&Endpoint, usize>` is embedded
as an association list with at most one entry per key. -/

/-- `*m.entry(k).or_default() |= b` on an association-list map: bitwise-or
`b` into the entry for `k`, inserting a zero default first if absent. -/
def orInsert {α : Type} [DecidableEq α] (m : List (α × Nat)) (k : α) (b : Nat) : List (α × Nat) :=
  match m with
  | [] => [(k, b)]
  | (k₀, v) :: rest => if k₀ = k then (k₀, v ||| b) :: rest else (k₀, v) :: orInsert rest k b

/-- Or-insert the bit `b` for every element of `l`, left to right. -/
def markAll {α : Type} [DecidableEq α] (m : List (α × Nat)) (l : List α) (b : Nat) : List (α × Nat) :=
  l.foldl (fun m x => orInsert m x b) m

/-- `endpoint_sets_equal`: true when both inputs are empty, or the inputs
are equal pointwise at equal length; otherwise mark every `xs` entry with
bit 1 and every `ys` entry with bit 2 in a map and check that every value
is 3. -/
def endpoint_sets_equal {α : Type} [DecidableEq α] (xs ys : List α) : Bool :=
  if xs.isEmpty && ys.isEmpty then true
  else if xs.length = ys.length && decide (xs = ys) then true
  else (markAll (markAll [] xs 1) ys 2).all fun kv => kv.2 == 3

/-- Look up a key in an association-list map. -/
def alget {α : Type} [DecidableEq α] (k : α) : List (α × Nat) → Option Nat
  | [] => none
  | (k₀, v) :: rest => if k₀ = k then some v else alget k rest

lemma alget_orInsert {α : Type} [DecidableEq α] (m : List (α × Nat)) (k k' : α) (b : Nat) :
    alget k (orInsert m k' b) =
      if k' = k then some ((alget k m).getD 0 ||| b) else alget k m := by
  induction m with
  | nil =>
    by_cases h : k' = k <;> simp [orInsert, alget, h]
  | cons kv rest ih =>
    obtain ⟨k₀, v⟩ := kv
    by_cases h0 : k₀ = k'
    · subst h0
      by_cases h : k₀ = k <;> simp [orInsert, alget, h]
    · rw [orInsert, if_neg h0]
      by_cases h : k₀ = k
      · subst h
        rw [alget, if_pos rfl, alget, if_pos rfl, if_neg (fun hh => h0 hh.symm)]
      · rw [alget, if_neg h, alget, if_neg h, ih]

lemma alget_markAll {α : Type} [DecidableEq α] (l : List α) (m : List (α × Nat)) (k : α) (b : Nat) :
    alget k (markAll m l b) =
      if k ∈ l then some ((alget k m).getD 0 ||| b) else alget k m := by
  induction l generalizing m with
  | nil => simp [markAll]
  | cons x xs ih =>
    have hstep : markAll m (x :: xs) b = markAll (orInsert m x b) xs b := rfl
    rw [hstep, ih]
    by_cases hmem : k ∈ xs
    · rw [if_pos hmem, if_pos (List.mem_cons_of_mem x hmem), alget_orInsert]
      by_cases hx : x = k
      · rw [if_pos hx]
        simp [Nat.or_assoc]
      · rw [if_neg hx]
    · rw [if_neg hmem, alget_orInsert]
      by_cases hx : x = k
      · rw [if_pos hx, if_pos (hx ▸ List.mem_cons_self x xs)]
      · rw [if_neg hx]
        rw [if_neg (by
          intro hcon
          rcases List.mem_cons.mp hcon with h | h
          · exact hx h.symm
          · exact hmem h)]

/-- The keys of an association-list map. -/
def alkeys {α : Type} (m : List (α × Nat)) : List α := m.map Prod.fst

lemma alkeys_orInsert {α : Type} [DecidableEq α] (m : List (α × Nat)) (k : α) (b : Nat) :
    alkeys (orInsert m k b) = if k ∈ alkeys m then alkeys m else alkeys m ++ [k] := by
  induction m with
  | nil => simp [orInsert, alkeys]
  | cons kv rest ih =>
    obtain ⟨k₀, v⟩ := kv
    by_cases h0 : k₀ = k
    · subst h0
      simp [orInsert, alkeys]
    · rw [orInsert, if_neg h0]
      have hthis : (k ∈ alkeys ((k₀, v) :: rest)) ↔ k ∈ alkeys rest := by
        simp only [alkeys, List.map_cons, List.mem_cons]
        exact ⟨fun h => h.elim (fun h1 => absurd h1.symm h0) id, Or.inr⟩
      have hcons : alkeys ((k₀, v) :: orInsert rest k b) = k₀ :: alkeys (orInsert rest k b) := rfl
      have hcons2 : alkeys ((k₀, v) :: rest) = k₀ :: alkeys rest := rfl
      by_cases hmem : k ∈ alkeys rest
      · rw [if_pos (hthis.mpr hmem), hcons, hcons2, ih, if_pos hmem]
      · rw [if_neg (fun hh => hmem (hthis.mp hh)), hcons, hcons2, ih, if_neg hmem,
          List.cons_append]

lemma nodup_alkeys_orInsert {α : Type} [DecidableEq α] {m : List (α × Nat)} (k : α) (b : Nat)
    (h : (alkeys m).Nodup) : (alkeys (orInsert m k b)).Nodup := by
  rw [alkeys_orInsert]
  by_cases hmem : k ∈ alkeys m
  · rwa [if_pos hmem]
  · rw [if_neg hmem]
    rw [List.nodup_append]
    refine ⟨h, List.nodup_singleton k, ?_⟩
    intro a ha hk
    rw [List.mem_singleton] at hk
    exact hmem (hk ▸ ha)

lemma nodup_alkeys_markAll {α : Type} [DecidableEq α] (l : List α) {m : List (α × Nat)} (b : Nat)
    (h : (alkeys m).Nodup) : (alkeys (markAll m l b)).Nodup := by
  induction l generalizing m with
  | nil => exact h
  | cons x xs ih => exact ih (nodup_alkeys_orInsert x b h)

lemma alget_of_mem {α : Type} [DecidableEq α] {m : List (α × Nat)} {k : α} {v : Nat}
    (hnd : (alkeys m).Nodup) (hmem : (k, v) ∈ m) : alget k m = some v := by
  induction m with
  | nil => exact absurd hmem (by simp)
  | cons kv rest ih =>
    obtain ⟨k₀, v₀⟩ := kv
    simp only [alkeys, List.map_cons, List.nodup_cons] at hnd
    rcases List.mem_cons.mp hmem with h | h
    · rw [alget, if_pos (by injection h with h1 h2; exact h1.symm)]
      injection h with h1 h2
      rw [h2]
    · rw [alget]
      by_cases hk : k₀ = k
      · subst hk
        have : k₀ ∈ List.map Prod.fst rest := List.mem_map_of_mem Prod.fst h
        exact absurd this hnd.1
      · rw [if_neg hk]
        exact ih hnd.2 h

/-- Claim C8: `endpoint_sets_equal` returns true on any two lists holding
the same multiset of entries (equal up to reordering with multiplicity). -/
theorem endpoint_sets_equal_of_perm {α : Type} [DecidableEq α] (xs ys : List α)
    (h : xs.Perm ys) : endpoint_sets_equal xs ys = true := by
  rw [endpoint_sets_equal]
  by_cases h1 : (xs.isEmpty && ys.isEmpty) = true
  · rw [if_pos h1]
  · rw [if_neg h1]
    by_cases h2 : (decide (xs.length = ys.length) && decide (xs = ys)) = true
    · rw [if_pos h2]
    · rw [if_neg h2]
      rw [List.all_eq_true]
      rintro ⟨k, v⟩ hkv
      have hnd : (alkeys (markAll (markAll [] xs 1) ys 2)).Nodup :=
        nodup_alkeys_markAll ys 2 (nodup_alkeys_markAll xs 1 (by simp [alkeys]))
      have hv := alget_of_mem hnd hkv
      rw [alget_markAll, alget_markAll] at hv
      have hiff : k ∈ xs ↔ k ∈ ys := h.mem_iff
      by_cases hky : k ∈ ys
      · rw [if_pos hky, if_pos (hiff.mpr hky)] at hv
        simp only [alget, Option.getD_some, Option.getD_none, Option.some.injEq] at hv
        simp [← hv]
      · rw [if_neg hky, if_neg (fun hkx => hky (hiff.mp hkx))] at hv
        exact absurd hv (by simp [alget])

/-- Witness for C8 at concrete inputs. -/
theorem endpoint_sets_equal_of_perm_witness :
    ([0, 1] : List Nat).Perm [1, 0] ∧ endpoint_sets_equal ([0, 1] : List Nat) [1, 0] = true :=
  ⟨by decide, endpoint_sets_equal_of_perm [0, 1] [1, 0] (by decide)⟩

/-- Claim C9: `endpoint_sets_equal` ignores multiplicity, not just order:
`[a, a, b]` and `[a, b, b]` have different multisets but the same
underlying set of distinct entries, and compare equal. -/
theorem endpoint_sets_equal_ignores_multiplicity :
    endpoint_sets_equal ([0, 0, 1] : List Nat) [0, 1, 1] = true ∧
    ¬ ([0, 0, 1] : List Nat).Perm [0, 1, 1] ∧
    (∀ x ∈ ([0, 0, 1] : List Nat), x ∈ ([0, 1, 1] : List Nat)) ∧
    (∀ x ∈ ([0, 1, 1] : List Nat), x ∈ ([0, 0, 1] : List Nat)) := by
  refine ⟨by decide, by decide, by decide, by decide⟩

/-! ## Virtual socket facade: poll_send / poll_recv (conn.rs lines 576-714)

The bounded `network_sender` queue is modelled by its remaining capacity
and a disconnected flag (`try_reserve` fails with `Closed` when the
receiver is gone, with `Full` when no capacity remains).  The flume
receive channel is modelled by its queued messages plus a disconnected
flag (`try_recv` yields queued messages first; `Disconnected` only once
the queue is empty).  Waker registration is modelled as a boolean. -/

/-- State of the bounded transmit queue to the coordinator. -/
structure ChannelState where
  free : Nat
  disconnected : Bool
deriving DecidableEq, Repr

/-- Which underlying transport a received datagram came from. -/
inductive NetworkSource where
  | derp
  | ipv4
  | ipv6
deriving DecidableEq, Repr

/-- A `quinn_udp::RecvMeta`: arrival address and payload length. -/
structure RecvMeta where
  addr : SocketAddr
  len : Nat
deriving DecidableEq, Repr

/-- One entry of the receive queue: a successfully read datagram, or the
error sentinel surfaced to the upper transport. -/
inductive NetworkReadResult where
  | error (e : IoError)
  | ok (bytes : List Nat) (meta : RecvMeta) (source : NetworkSource)
deriving DecidableEq, Repr

/-- Result of the `poll_send` group loop: datagrams enqueued, remaining
channel state, whether a waker was registered, whether `try_reserve`
reported the channel closed. -/
structure SendLoopResult where
  n : Nat
  chan : ChannelState
  wakerSet : Bool
  closedErr : Bool
deriving DecidableEq, Repr

/-- The `for group in groups` loop of `poll_send`: reserve a queue slot
per group; on `Full` register the waker and break, on `Closed` fail, on
success count the group's datagrams. -/
def sendLoop (groups : List (List Transmit)) (chan : ChannelState) (n : Nat) : SendLoopResult :=
  match groups with
  | [] => ⟨n, chan, false, false⟩
  | g :: gs =>
    if chan.disconnected then ⟨n, chan, false, true⟩
    else if chan.free = 0 then ⟨n, chan, true, false⟩
    else sendLoop gs ⟨chan.free - 1, chan.disconnected⟩ (n + g.length)

/-- `Conn::poll_send`: fail when closed, succeed with 0 on an empty batch,
otherwise enqueue destination groups until the queue fills; returns the
poll result, the channel state, and whether a waker was registered. -/
def Conn.poll_send (closed : Bool) (chan : ChannelState) (transmits : List Transmit) :
    Poll (Except IoError Nat) × ChannelState × Bool :=
  if closed then (Poll.ready (Except.error connClosedError), chan, false)
  else if transmits.isEmpty then (Poll.ready (Except.ok 0), chan, false)
  else
    let r := sendLoop (TransmitIter.groups transmits) chan 0
    if r.closedErr then (Poll.ready (Except.error connClosedError), r.chan, r.wakerSet)
    else if r.n > 0 then (Poll.ready (Except.ok r.n), r.chan, r.wakerSet)
    else (Poll.pending, r.chan, r.wakerSet)

/-- After the `poll_recv` loop: report the drained count if positive,
otherwise pending. -/
def recvAfterLoop (n : Nat) : Poll (Except IoError Nat) :=
  if n > 0 then Poll.ready (Except.ok n) else Poll.pending

/-- The `for (buf_out, meta_out) in bufs.zip(metas)` loop of `poll_recv`:
per free slot, `try_recv` one message; `Empty` registers the waker and
breaks; `Disconnected` fails; a dequeued message is dropped if the
connection closed meanwhile, surfaces the error sentinel as the poll
result, or is copied out and counted.  Returns the poll result, the
remaining queue, and whether a waker was registered. -/
def recvLoop (disconnected closed : Bool) :
    Nat → List NetworkReadResult → Nat → Poll (Except IoError Nat) × List NetworkReadResult × Bool
  | 0, q, n => (recvAfterLoop n, q, false)
  | _ + 1, [], n =>
    if disconnected then (Poll.ready (Except.error connClosedError), [], false)
    else (recvAfterLoop n, [], true)
  | k + 1, dm :: rest, n =>
    if closed then (recvAfterLoop n, rest, false)
    else
      match dm with
      | NetworkReadResult.error e => (Poll.ready (Except.error e), rest, false)
      | NetworkReadResult.ok _ _ _ => recvLoop disconnected closed k rest (n + 1)

/-- `Conn::poll_recv`: fail when closed, otherwise drain up to the number
of caller buffer slots from the receive queue. -/
def Conn.poll_recv (closed disconnected : Bool) (queue : List NetworkReadResult) (nbufs : Nat) :
    Poll (Except IoError Nat) × List NetworkReadResult × Bool :=
  if closed then (Poll.ready (Except.error connClosedError), queue, false)
  else recvLoop disconnected closed nbufs queue 0

/-- Claim C4: once the closed flag is set, every call to `poll_send` and
every call to `poll_recv` returns `Ready(Err)` with an error of kind
`NotConnected`, for all arguments. -/
theorem poll_closed_not_connected (chan : ChannelState) (transmits : List Transmit)
    (disconnected : Bool) (queue : List NetworkReadResult) (nbufs : Nat) :
    (Conn.poll_send true chan transmits).1 = Poll.ready (Except.error connClosedError) ∧
    (Conn.poll_recv true disconnected queue nbufs).1 = Poll.ready (Except.error connClosedError) ∧
    connClosedError.kind = IoErrorKind.notConnected :=
  ⟨rfl, rfl, rfl⟩

lemma recvLoop_error_after_goods (disconnected : Bool) (e : IoError)
    (rest : List NetworkReadResult) :
    ∀ (goods : List NetworkReadResult) (k n : Nat),
      (∀ g ∈ goods, ∃ b m s, g = NetworkReadResult.ok b m s) → goods.length < k →
      recvLoop disconnected false k (goods ++ NetworkReadResult.error e :: rest) n =
        (Poll.ready (Except.error e), rest, false) := by
  intro goods
  induction goods with
  | nil =>
    intro k n _ hk
    match k, hk with
    | k' + 1, _ => rfl
  | cons g gs ih =>
    intro k n hgood hk
    match k, hk with
    | k' + 1, hk' =>
      obtain ⟨b, m, s, hg⟩ := hgood g (List.mem_cons_self g gs)
      subst hg
      show recvLoop disconnected false k' (gs ++ NetworkReadResult.error e :: rest) (n + 1) =
        (Poll.ready (Except.error e), rest, false)
      refine ih k' (n + 1) (fun x hx => hgood x (List.mem_cons_of_mem _ hx)) ?_
      simp only [List.length_cons] at hk'
      omega

/-- Claim C10: if `poll_recv` dequeues the error sentinel after `k > 0`
datagrams were already copied out in the same call, it returns
`Ready(Err)` with that error; the `k` datagrams are not reported in that
call (the result carries no count) and, having been dequeued, are gone
from the queue that later calls drain. -/
theorem poll_recv_error_drops_datagrams (disconnected : Bool) (goods : List NetworkReadResult)
    (e : IoError) (rest : List NetworkReadResult) (nbufs : Nat)
    (hgood : ∀ g ∈ goods, ∃ b m s, g = NetworkReadResult.ok b m s)
    (_hpos : 0 < goods.length) (hlt : goods.length < nbufs) :
    Conn.poll_recv false disconnected (goods ++ NetworkReadResult.error e :: rest) nbufs =
      (Poll.ready (Except.error e), rest, false) := by
  rw [Conn.poll_recv, if_neg (by simp)]
  exact recvLoop_error_after_goods disconnected e rest goods nbufs 0 hgood hlt

/-- Witness for C10 at concrete inputs. -/
theorem poll_recv_error_drops_datagrams_witness :
    Conn.poll_recv false false
        [NetworkReadResult.ok [1] ⟨⟨IpAddr.v4 9 9 9 9, 7⟩, 1⟩ NetworkSource.ipv4,
         NetworkReadResult.error ⟨IoErrorKind.other, "boom"⟩,
         NetworkReadResult.ok [2] ⟨⟨IpAddr.v4 9 9 9 9, 7⟩, 1⟩ NetworkSource.ipv6] 4 =
      (Poll.ready (Except.error ⟨IoErrorKind.other, "boom"⟩),
        [NetworkReadResult.ok [2] ⟨⟨IpAddr.v4 9 9 9 9, 7⟩, 1⟩ NetworkSource.ipv6], false) :=
  poll_recv_error_drops_datagrams false
    [NetworkReadResult.ok [1] ⟨⟨IpAddr.v4 9 9 9 9, 7⟩, 1⟩ NetworkSource.ipv4]
    ⟨IoErrorKind.other, "boom"⟩
    [NetworkReadResult.ok [2] ⟨⟨IpAddr.v4 9 9 9 9, 7⟩, 1⟩ NetworkSource.ipv6] 4
    (by intro g hg
        rw [List.mem_singleton] at hg
        exact ⟨[1], ⟨⟨IpAddr.v4 9 9 9 9, 7⟩, 1⟩, NetworkSource.ipv4, hg⟩)
    (by decide) (by decide)

/-! ## Conn::close (conn.rs lines 489-508) -/

/-- The coordinator messages the close path can emit. -/
inductive ActorMessage where
  | shutdown
deriving DecidableEq, Repr

/-- The `Conn` state that `close` reads and writes: the closed and closing
flags and the pending actor tasks. -/
structure ConnState where
  closed : Bool
  closing : Bool
  tasks : Nat
deriving DecidableEq, Repr

/-- `Conn::close`: return `Ok` at once if already closed; otherwise send
`Shutdown` (failing if the actor queue is gone), set the closing and
closed flags, and drain all actor tasks.  Returns the result, the new
state, and the messages sent. -/
def Conn.close (s : ConnState) (sendFails : Bool) :
    Except Unit Unit × ConnState × List ActorMessage :=
  if s.closed then (Except.ok (), s, [])
  else if sendFails then (Except.error (), s, [])
  else (Except.ok (), { closed := true, closing := true, tasks := 0 }, [ActorMessage.shutdown])

/-- Claim C7: `close()` is idempotent: after a call to `close()` has
completed successfully, a second call returns `Ok` without sending a
shutdown message and without modifying any state. -/
theorem close_idempotent (s s' : ConnState) (sendFails : Bool) (msgs : List ActorMessage)
    (h : Conn.close s sendFails = (Except.ok (), s', msgs)) (sendFails' : Bool) :
    Conn.close s' sendFails' = (Except.ok (), s', []) := by
  have hclosed : s'.closed = true := by
    rw [Conn.close] at h
    by_cases hc : s.closed = true
    · rw [if_pos hc] at h
      have : s = s' := congrArg (fun p => p.2.1) h
      rw [← this]
      exact hc
    · rw [if_neg hc] at h
      by_cases hf : sendFails = true
      · rw [if_pos hf] at h
        exact absurd (congrArg (fun p => p.1) h) (by simp)
      · rw [if_neg hf] at h
        have : ({ closed := true, closing := true, tasks := 0 } : ConnState) = s' :=
          congrArg (fun p => p.2.1) h
        rw [← this]
  rw [Conn.close, if_pos hclosed]

/-- Witness for C7 at concrete inputs. -/
theorem close_idempotent_witness :
    Conn.close ⟨false, false, 2⟩ false =
      (Except.ok (), ⟨true, true, 0⟩, [ActorMessage.shutdown]) ∧
    Conn.close ⟨true, true, 0⟩ true = (Except.ok (), ⟨true, true, 0⟩, []) :=
  ⟨rfl, close_idempotent ⟨false, false, 2⟩ ⟨true, true, 0⟩ false [ActorMessage.shutdown] rfl true⟩

/-! ## Discovery handlers (conn.rs lines 1892-2096)

Public keys and ping transaction ids are opaque identifiers, modelled as
`Nat`.  The sealed-box open and the message parse are external crypto /
serialisation collaborators (spec scope), so `handle_disco_message` takes
their outcomes as parameters.  Metric counters and `send_disco_message` /
`handle_call_me_maybe` invocations are recorded as explicit effects. -/

/-- Generic association-list lookup. -/
def assocGet {κ ν : Type} [DecidableEq κ] (k : κ) : List (κ × ν) → Option ν
  | [] => none
  | (k₀, v) :: rest => if k₀ = k then some v else assocGet k rest

/-- Generic association-list insert-or-replace (appends new keys). -/
def assocPut {κ ν : Type} [DecidableEq κ] (k : κ) (v : ν) : List (κ × ν) → List (κ × ν)
  | [] => [(k, v)]
  | (k₀, v₀) :: rest => if k₀ = k then (k, v) :: rest else (k₀, v₀) :: assocPut k v rest

/-- A discovery `Ping`: a liveness probe carrying a transaction id. -/
structure Ping where
  txId : Nat
deriving DecidableEq, Repr

/-- A discovery `Pong`: echoes the ping's transaction id and the address
the responder observed the ping from. -/
structure Pong where
  txId : Nat
  src : SocketAddr
deriving DecidableEq, Repr

/-- A discovery `CallMeMaybe`: the sender's candidate endpoints. -/
structure CallMeMaybe where
  myNumber : List SocketAddr
deriving DecidableEq, Repr

/-- A parsed discovery message (`disco::Message`). -/
inductive DiscoMessage where
  | ping (p : Ping)
  | pong (p : Pong)
  | callMeMaybe (cm : CallMeMaybe)
deriving DecidableEq, Repr

/-- The `MagicsockMetrics` counters the discovery receive path increments. -/
inductive Metric where
  | RecvDiscoBadKey
  | RecvDiscoBadParse
  | RecvDiscoUdp
  | RecvDiscoDerp
  | RecvDiscoPing
  | RecvDiscoPong
  | RecvDiscoCallMeMaybe
  | RecvDiscoCallMeMaybeBadDisco
deriving DecidableEq, Repr

/-- Modelled from the spec: one candidate UDP path of an endpoint record
(§3 "endpoint record"), with the last ping transaction id validated from
this address and the pending outbound probe id, if any.  The `Endpoint`
type lives in the endpoint module, which is not part of this file's
source. -/
structure Candidate where
  addr : SocketAddr
  lastGotPingTxId : Option Nat
  pendingPingTxId : Option Nat
deriving DecidableEq, Repr

/-- Modelled from the spec: the per-peer endpoint record (§3), reduced to
the fields the embedded `conn.rs` fragment touches. -/
structure Endpoint where
  publicKey : Nat
  derpAddr : Option SocketAddr
  candidates : List Candidate
deriving DecidableEq, Repr

/-- Modelled from the spec: `Endpoint::add_candidate_endpoint` (§4.3
replay/dedup: "each (endpoint, tx_id) may be validated at most once;
duplicates are silently dropped").  Returns true — a duplicate ping — iff
the source address is already a candidate whose last validated ping
transaction id equals this one; otherwise records the candidate/id. -/
def Endpoint.add_candidate_endpoint (ep : Endpoint) (src : SocketAddr) (txId : Nat) :
    Bool × Endpoint :=
  match ep.candidates.find? (fun c => c.addr == src) with
  | some c =>
    if c.lastGotPingTxId = some txId then (true, ep)
    else (false, { ep with candidates := ep.candidates.map fun c =>
        if c.addr = src then { c with lastGotPingTxId := some txId } else c })
  | none =>
    (false, { ep with candidates := ep.candidates ++ [⟨src, some txId, none⟩] })

/-- Modelled from the spec: `Endpoint::handle_pong_conn` (§4.3 Pong:
match the transaction id to an outstanding probe and record the
responding path).  Returns the updated endpoint and, on a match, the
`(ip, port) → node key` index entry to insert. -/
def Endpoint.handle_pong_conn (ep : Endpoint) (pong : Pong) (src : SocketAddr) :
    Endpoint × Option (SocketAddr × Nat) :=
  if ep.candidates.any (fun c => c.pendingPingTxId == some pong.txId) then
    ({ ep with candidates := ep.candidates.map fun c =>
        if c.pendingPingTxId = some pong.txId then { c with pendingPingTxId := none } else c },
      some (src, ep.publicKey))
  else (ep, none)

/-- The peer table as the embedded fragment uses it: endpoint records by
node key and the `(ip, port) → node key` index. -/
structure PeerMap where
  byNodeKey : List (Nat × Endpoint)
  byIpPort : List (SocketAddr × Nat)
deriving DecidableEq, Repr

/-- `PeerMap::endpoint_for_node_key`. -/
def PeerMap.endpointForNodeKey (pm : PeerMap) (k : Nat) : Option Endpoint :=
  assocGet k pm.byNodeKey

/-- `PeerMap::endpoint_for_ip_port`. -/
def PeerMap.endpointForIpPort (pm : PeerMap) (src : SocketAddr) : Option Endpoint :=
  (assocGet src pm.byIpPort).bind fun k => assocGet k pm.byNodeKey

/-- `PeerMap::insert_endpoint` with `EndpointOptions{public_key, derp_addr}`:
adds a fresh endpoint record for the key. -/
def PeerMap.insertEndpoint (pm : PeerMap) (publicKey : Nat) (derpAddr : Option SocketAddr) :
    PeerMap :=
  { pm with byNodeKey := assocPut publicKey ⟨publicKey, derpAddr, []⟩ pm.byNodeKey }

/-- `PeerMap::set_node_key_for_ip_port`. -/
def PeerMap.setNodeKeyForIpPort (pm : PeerMap) (src : SocketAddr) (k : Nat) : PeerMap :=
  { pm with byIpPort := assocPut src k pm.byIpPort }

/-- Store an updated endpoint record back under its node key. -/
def PeerMap.putEndpoint (pm : PeerMap) (k : Nat) (ep : Endpoint) : PeerMap :=
  { pm with byNodeKey := assocPut k ep pm.byNodeKey }

/-- The discovery session state for one remote key (`DiscoInfo`): the
node key and the source of the last received ping.  The shared secret
(external crypto) and the last-ping time (real time) are not modelled. -/
structure DiscoInfo where
  nodeKey : Nat
  lastPingFrom : Option SocketAddr
deriving DecidableEq, Repr

/-- `get_disco_info`: look up the session state for a key, creating it on
first use. -/
def get_disco_info (di : List (Nat × DiscoInfo)) (k : Nat) : DiscoInfo × List (Nat × DiscoInfo) :=
  match assocGet k di with
  | some d => (d, di)
  | none => (⟨k, none⟩, assocPut k ⟨k, none⟩ di)

/-- The actor state the discovery receive path reads and writes. -/
structure ActorState where
  peerMap : PeerMap
  discoInfo : List (Nat × DiscoInfo)
  connClosed : Bool
  connPublicKey : Nat
deriving DecidableEq, Repr

/-- The observable effects of one discovery receive: counters incremented,
`send_disco_message` calls `(dst, dst_key, msg)`, and
`Endpoint::handle_call_me_maybe` invocations `(node key, message)`. -/
structure DiscoEffects where
  counters : List Metric
  sentDisco : List (SocketAddr × Nat × DiscoMessage)
  handledCallMeMaybe : List (Nat × CallMeMaybe)
deriving DecidableEq, Repr

/-- The empty effect record. -/
def noEffects : DiscoEffects := ⟨[], [], []⟩

/-- `Actor::handle_ping` (conn.rs lines 2022-2096): record the ping in the
session state, assert relay consistency (`None` models the panic), record
the source as a candidate — returning early with no reply on a duplicate
ping — update the `(ip, port)` index when the endpoint is known, and send
a `Pong` echoing the transaction id back to the source address. -/
def Actor.handle_ping (st : ActorState) (dm : Ping) (sender : Nat) (src : SocketAddr)
    (derpNodeSrc : Option Nat) : Option (ActorState × DiscoEffects) :=
  let st1 : ActorState :=
    { st with discoInfo := assocPut sender ⟨sender, some src⟩ st.discoInfo }
  let isDerp := src.ip = DERP_MAGIC_IP
  if (if isDerp then derpNodeSrc.isNone else derpNodeSrc.isSome) then none
  else
    let dstKey := derpNodeSrc.getD sender
    match st1.peerMap.endpointForNodeKey dstKey with
    | some ep =>
      let r := ep.add_candidate_endpoint src dm.txId
      let st2 := { st1 with peerMap := st1.peerMap.putEndpoint dstKey r.2 }
      if r.1 then some (st2, noEffects)
      else
        let st3 := { st2 with peerMap := st2.peerMap.setNodeKeyForIpPort src dstKey }
        some (st3, { noEffects with sentDisco := [(src, dstKey, DiscoMessage.pong ⟨dm.txId, src⟩)] })
    | none =>
      some (st1, { noEffects with sentDisco := [(src, dstKey, DiscoMessage.pong ⟨dm.txId, src⟩)] })

/-- `Actor::handle_disco_message` (conn.rs lines 1892-2017), from the
point where the sender key has been read.  `sealOk` is the outcome of
opening the sealed box with the shared secret and `parsed` the outcome of
parsing its payload (both external collaborators).  Returns the new
state, the effects, and the "was a disco message" flag; `none` models the
relay-consistency panic inside `handle_ping`. -/
def Actor.handle_disco_message (st : ActorState) (sender : Nat) (sealOk : Bool)
    (parsed : Option DiscoMessage) (src : SocketAddr) (derpNodeSrc : Option Nat) :
    Option (ActorState × DiscoEffects × Bool) :=
  if st.connClosed then some (st, noEffects, true)
  else
    let unknownSender :=
      (st.peerMap.endpointForNodeKey sender).isNone ∧ (st.peerMap.endpointForIpPort src).isNone
    let st1 : ActorState := { st with discoInfo := (get_disco_info st.discoInfo sender).2 }
    if ¬sealOk then some (st1, { noEffects with counters := [Metric.RecvDiscoBadKey] }, true)
    else
      match parsed with
      | none => some (st1, { noEffects with counters := [Metric.RecvDiscoBadParse] }, true)
      | some dm =>
        let isDerp := src.ip = DERP_MAGIC_IP
        let base := if isDerp then Metric.RecvDiscoDerp else Metric.RecvDiscoUdp
        match dm with
        | DiscoMessage.ping p =>
          let st2 :=
            if unknownSender then
              { st1 with peerMap :=
                  st1.peerMap.insertEndpoint sender (if isDerp then some src else none) }
            else st1
          (Actor.handle_ping st2 p sender src derpNodeSrc).map fun r =>
            (r.1, { r.2 with counters := base :: Metric.RecvDiscoPing :: r.2.counters }, true)
        | DiscoMessage.pong p =>
          let eff : DiscoEffects := { noEffects with counters := [base, Metric.RecvDiscoPong] }
          match st1.peerMap.endpointForNodeKey sender with
          | some ep =>
            let r := ep.handle_pong_conn p src
            let st2 := { st1 with peerMap := st1.peerMap.putEndpoint sender r.1 }
            let st3 :=
              match r.2 with
              | some (s, k) => { st2 with peerMap := st2.peerMap.setNodeKeyForIpPort s k }
              | none => st2
            some (st3, eff, true)
          | none => some (st1, eff, true)
        | DiscoMessage.callMeMaybe cm =>
          if ¬isDerp ∨ derpNodeSrc.isNone then
            some (st1, { noEffects with counters := [base, Metric.RecvDiscoCallMeMaybe] }, true)
          else
            match derpNodeSrc with
            | none => some (st1, { noEffects with counters := [base, Metric.RecvDiscoCallMeMaybe] }, true)
            | some nodeKey =>
              match st1.peerMap.endpointForNodeKey nodeKey with
              | none =>
                some (st1, { noEffects with counters :=
                  [base, Metric.RecvDiscoCallMeMaybe, Metric.RecvDiscoCallMeMaybeBadDisco] }, true)
              | some ep =>
                some (st1, { noEffects with
                  counters := [base, Metric.RecvDiscoCallMeMaybe]
                  handledCallMeMaybe := [(ep.publicKey, cm)] }, true)

/-- No-duplicate condition for a ping: the source is not already recorded
as a candidate of the target endpoint with this same transaction id. -/
def noDupPing (st : ActorState) (key : Nat) (src : SocketAddr) (txId : Nat) : Bool :=
  match st.peerMap.endpointForNodeKey key with
  | none => true
  | some ep => ep.candidates.all fun c => !(c.addr == src && c.lastGotPingTxId == some txId)

lemma add_candidate_not_dup {ep : Endpoint} {src : SocketAddr} {txId : Nat}
    (h : ep.candidates.all (fun c => !(c.addr == src && c.lastGotPingTxId == some txId)) = true) :
    (ep.add_candidate_endpoint src txId).1 = false := by
  rw [Endpoint.add_candidate_endpoint]
  split
  · rename_i c hfind
    split
    · rename_i hEq
      exfalso
      have hc := List.find?_some hfind
      have hmem : c ∈ ep.candidates := List.mem_of_find?_eq_some hfind
      have hall := List.all_eq_true.mp h c hmem
      have haddr : c.addr = src := by simpa using hc
      rw [haddr, hEq] at hall
      simp at hall
    · rfl
  · rfl

/-- A sample UDP source address (not the relay-magic IP). -/
def src0 : SocketAddr := ⟨IpAddr.v4 9 9 9 9, 7⟩

/-- A sample actor state: open connection, one endpoint for key 1 that has
already validated a ping with transaction id 42 from `src0`. -/
def stDup : ActorState :=
  { peerMap := { byNodeKey := [(1, ⟨1, none, [⟨src0, some 42, none⟩]⟩)], byIpPort := [] }
    discoInfo := []
    connClosed := false
    connPublicKey := 0 }

/-- Counterexample to claim C2 as stated: a Ping that is received and
successfully unsealed and parsed, but whose `(source, tx_id)` was already
validated, returns from `handle_ping` without sending any Pong. -/
theorem handle_ping_duplicate_no_pong :
    (Actor.handle_ping stDup ⟨42⟩ 1 src0 none).map (fun r => r.2.sentDisco) = some [] := by
  decide

/-- Claim C2 (amended): for every received, unsealed and parsed discovery
Ping that is not a duplicate (its source is not already recorded as a
candidate with the same transaction id), `handle_ping` sends exactly one
Pong whose tx_id equals the Ping's tx_id, addressed to the exact source
address the Ping arrived from (which is the relay path when the source IP
is the relay-magic IP, the UDP arrival address otherwise). -/
theorem handle_ping_pong_spec (st : ActorState) (p : Ping) (sender : Nat) (src : SocketAddr)
    (derpNodeSrc : Option Nat)
    (hassert : (if src.ip = DERP_MAGIC_IP then derpNodeSrc.isSome else derpNodeSrc.isNone) = true)
    (hnodup : noDupPing st (derpNodeSrc.getD sender) src p.txId = true) :
    ∃ st', Actor.handle_ping st p sender src derpNodeSrc =
      some (st', { noEffects with
        sentDisco := [(src, derpNodeSrc.getD sender, DiscoMessage.pong ⟨p.txId, src⟩)] }) := by
  rw [Actor.handle_ping]
  have hguard : (if src.ip = DERP_MAGIC_IP then derpNodeSrc.isNone else derpNodeSrc.isSome)
      = false := by
    by_cases hd : src.ip = DERP_MAGIC_IP
    · rw [if_pos hd] at hassert ⊢
      cases derpNodeSrc <;> simp_all
    · rw [if_neg hd] at hassert ⊢
      cases derpNodeSrc <;> simp_all
  simp only [hguard, Bool.false_eq_true, if_false]
  split
  · rename_i ep hep
    have hep' : st.peerMap.endpointForNodeKey (derpNodeSrc.getD sender) = some ep := hep
    have hnodup' : (ep.candidates.all
        fun c => !(c.addr == src && c.lastGotPingTxId == some p.txId)) = true := by
      rw [noDupPing, hep'] at hnodup
      exact hnodup
    split
    · rename_i hdup
      exact absurd hdup (by simp [add_candidate_not_dup hnodup'])
    · exact ⟨_, rfl⟩
  · exact ⟨_, rfl⟩

/-- Witness for the amended C2 at concrete inputs. -/
theorem handle_ping_pong_spec_witness :
    ∃ st', Actor.handle_ping stDup ⟨43⟩ 1 src0 none =
      some (st', { noEffects with sentDisco := [(src0, 1, DiscoMessage.pong ⟨43, src0⟩)] }) :=
  handle_ping_pong_spec stDup ⟨43⟩ 1 src0 none (by decide) (by decide)

/-- Counterexample to claim C3 as stated: a CallMeMaybe arriving over UDP
is dropped — no call-me-maybe handling, no outbound send — but the
`RecvDiscoCallMeMaybeBadDisco` counter is NOT incremented: only
`RecvDiscoUdp` and `RecvDiscoCallMeMaybe` are. -/
theorem call_me_maybe_udp_bad_disco_not_incremented :
    Actor.handle_disco_message stDup 1 true (some (DiscoMessage.callMeMaybe ⟨[]⟩)) src0 none =
      some ({ stDup with discoInfo := [(1, ⟨1, none⟩)] },
        { counters := [Metric.RecvDiscoUdp, Metric.RecvDiscoCallMeMaybe], sentDisco := [],
          handledCallMeMaybe := [] }, true) ∧
    [Metric.RecvDiscoUdp, Metric.RecvDiscoCallMeMaybe].count
      Metric.RecvDiscoCallMeMaybeBadDisco = 0 := by
  exact ⟨by decide, by decide⟩

/-- Claim C3 (amended): a CallMeMaybe that arrives over UDP rather than
via the relay (source IP not the relay-magic IP, or no DERP-layer source
key) is dropped by `handle_disco_message` without invoking the endpoint's
call-me-maybe handling and without any outbound send; the
`RecvDiscoCallMeMaybeBadDisco` counter is not incremented (only the
arrival-path counter and `RecvDiscoCallMeMaybe` are). -/
theorem call_me_maybe_udp_dropped (st : ActorState) (sender : Nat) (cm : CallMeMaybe)
    (src : SocketAddr) (derpNodeSrc : Option Nat)
    (hopen : st.connClosed = false)
    (hudp : src.ip ≠ DERP_MAGIC_IP ∨ derpNodeSrc = none) :
    Actor.handle_disco_message st sender true (some (DiscoMessage.callMeMaybe cm)) src
        derpNodeSrc =
      some ({ st with discoInfo := (get_disco_info st.discoInfo sender).2 },
        { counters := [if src.ip = DERP_MAGIC_IP then Metric.RecvDiscoDerp
            else Metric.RecvDiscoUdp, Metric.RecvDiscoCallMeMaybe],
          sentDisco := [], handledCallMeMaybe := [] }, true) ∧
    ([if src.ip = DERP_MAGIC_IP then Metric.RecvDiscoDerp else Metric.RecvDiscoUdp,
        Metric.RecvDiscoCallMeMaybe].count Metric.RecvDiscoCallMeMaybeBadDisco = 0) := by
  constructor
  · simp only [Actor.handle_disco_message, hopen, Bool.false_eq_true, if_false, not_true,
      Option.map]
    rw [if_pos (by
      rcases hudp with h | h
      · exact Or.inl h
      · right
        rw [h]
        rfl)]
    rfl
  · by_cases hd : src.ip = DERP_MAGIC_IP
    · rw [if_pos hd]
      decide
    · rw [if_neg hd]
      decide

/-- Witness for the amended C3 at concrete inputs. -/
theorem call_me_maybe_udp_dropped_witness :
    Actor.handle_disco_message stDup 2 true (some (DiscoMessage.callMeMaybe ⟨[src0]⟩)) src0 none =
      some ({ stDup with discoInfo := (get_disco_info stDup.discoInfo 2).2 },
        { counters := [if src0.ip = DERP_MAGIC_IP then Metric.RecvDiscoDerp
            else Metric.RecvDiscoUdp, Metric.RecvDiscoCallMeMaybe],
          sentDisco := [], handledCallMeMaybe := [] }, true) ∧
    ([if src0.ip = DERP_MAGIC_IP then Metric.RecvDiscoDerp else Metric.RecvDiscoUdp,
        Metric.RecvDiscoCallMeMaybe].count Metric.RecvDiscoCallMeMaybeBadDisco = 0) :=
  call_me_maybe_udp_dropped stDup 2 ⟨[src0]⟩ src0 none rfl (Or.inr rfl)
